import Mathlib

/-!
Verification of the natural-language specification of
`art/attacks/attack.py` (the abstract `Attack` base class of the
adversarial-robustness-toolbox excerpt) against a shallow embedding of the
code.

Modelling choices:
* A Python instance is its attribute dictionary: an insertion-ordered
  association list from attribute names to values (`Attack.dict`), exactly
  CPython's `__dict__` semantics (assignment replaces in place if the key
  exists, otherwise appends).
* Python values relevant to this module are captured by `PyVal`.  Object
  references are modelled by identity (`PyVal.obj` carries an id); floats
  occurring here (`interval`, metric values) are only ever stored and
  passed through, never computed with, so they are carried exactly as
  rationals.
* `keras.utils.Progbar` is external library code, not part of this
  repository; it is modelled from the spec (see `ProgbarState`).
* Raising is modelled with `Except PyError`.
-/

/-- Modelled from the spec: the external progress-bar capability
(`keras.utils.Progbar` is not part of this repository's source).  Per the
spec it is initialized with a target step count and display configuration
(width, verbosity level, minimum update interval, list of metric names to
display unaveraged) and updated with a current step index plus a list of
(name, value) pairs; it tracks the current step of the target in its
display state. -/
structure ProgbarState where
  target : Option Nat
  width : Nat
  verbose : Nat
  interval : ℚ
  stateful_metrics : List String
  current : Nat
  last_values : List (String × ℚ)
deriving DecidableEq

/-- Python values that can occur as attribute values in this module:
`None`, booleans, integers, floats (stored exactly, never computed with),
strings, lists of strings (the shape of an `attack_params` value), opaque
object references identified by id (classifier instances), and progress-bar
objects. -/
inductive PyVal where
  | pynone
  | bool (b : Bool)
  | int (n : Int)
  | float (q : ℚ)
  | str (s : String)
  | strList (l : List String)
  | obj (id : Nat)
  | progbar (p : ProgbarState)
deriving DecidableEq

/-- Errors raised by the modelled code: `NotImplementedError` from the
abstract `generate`, and `AttributeError` (carrying the missing attribute
name) from attribute access on an instance lacking it. -/
inductive PyError where
  | notImplementedError
  | attributeError (name : String)
deriving DecidableEq

/-- Lookup in an attribute dictionary (first binding of the key). -/
def lookupA : List (String × PyVal) → String → Option PyVal
  | [], _ => Option.none
  | (k', v) :: rest, k => if k' = k then Option.some v else lookupA rest k

/-- Attribute assignment in an attribute dictionary: replace in place if the
key is present, append otherwise (CPython `__dict__` insertion order). -/
def setIn : List (String × PyVal) → String → PyVal → List (String × PyVal)
  | [], k, v => [(k, v)]
  | (k', v') :: rest, k, v =>
      if k' = k then (k', v) :: rest else (k', v') :: setIn rest k v

/-- An `Attack` instance is its attribute dictionary. -/
structure Attack where
  dict : List (String × PyVal)
deriving DecidableEq

/-- `getattr(self, k)` restricted to the instance dictionary. -/
def Attack.getattr? (self : Attack) (k : String) : Option PyVal :=
  lookupA self.dict k

/-- `setattr(self, k, v)`. -/
def Attack.setattr (self : Attack) (k : String) (v : PyVal) : Attack :=
  ⟨setIn self.dict k v⟩

/-- The class attribute `attack_params = ['classifier']` of the base
`Attack` class (attack.py line 35). -/
def Attack.attack_params : List String :=
  ["classifier"]

/-- Resolution of the expression `self.attack_params`: Python consults the
instance `__dict__` first and falls back to the class attribute `cls`.
Within this module an instance-level entry can only ever be a list of
strings; a non-list value there would make `key in self.attack_params`
raise a `TypeError` in Python, but no modelled operation can produce such a
state (every theorem below starts from a state without an instance-level
entry, or from a reachable state, where this branch is unreachable), so
that branch resolves to the empty list. -/
def resolve_attack_params (cls : List String) (self : Attack) : List String :=
  match self.getattr? "attack_params" with
  | Option.some (PyVal.strList l) => l
  | Option.some _ => []
  | Option.none => cls

/-- `Attack.__init__` (attack.py lines 37-42): a fresh instance whose only
attribute assignment is `self.classifier = classifier`. -/
def Attack.init (classifier : PyVal) : Attack :=
  ⟨[("classifier", classifier)]⟩

/-- `Attack.generate` (attack.py lines 44-56): the abstract method body is
`raise NotImplementedError`.  A concrete subclass that does not override
`generate` dispatches to this very method, so its behaviour is this
definition as well. -/
def Attack.generate (self : Attack) (x : PyVal) (kwargs : List (String × PyVal)) :
    Except PyError PyVal :=
  Except.error PyError.notImplementedError

/-- Construction of the external progress bar
(`Progbar(target, width, verbose, interval, stateful_metrics)`), modelled
from the spec: it records the target and display configuration and starts
at step 0.  A `stateful_metrics` argument of `None` means the empty list. -/
def Progbar.start (target : Option Nat) (width verbose : Nat) (interval : ℚ)
    (stateful_metrics : Option (List String)) : ProgbarState :=
  ⟨target, width, verbose, interval, stateful_metrics.getD [], 0, []⟩

/-- Modelled from the spec: `Progbar.update(current, values)` of the
external progress bar sets the tracked current step and records the last
supplied (name, value) pairs; it does not fail. -/
def Progbar.update (p : ProgbarState) (current : Nat)
    (values : Option (List (String × ℚ))) : ProgbarState :=
  { p with current := current, last_values := values.getD [] }

/-- `Attack.start_progress_bar` (attack.py lines 58-78): assigns a fresh
progress bar to the `prog_bar` attribute. -/
def Attack.start_progress_bar (self : Attack) (target : Option Nat)
    (width verbose : Nat) (interval : ℚ)
    (stateful_metrics : Option (List String)) : Attack :=
  self.setattr "prog_bar"
    (PyVal.progbar (Progbar.start target width verbose interval stateful_metrics))

/-- `Attack.update_progress_bar` (attack.py lines 80-93): evaluates
`self.prog_bar.update(current, values)`.  If the instance has no `prog_bar`
attribute the attribute access raises `AttributeError` for `prog_bar`; if
the attribute holds a value that is not a progress bar, the `update`
attribute access on that value raises.  Otherwise the progress bar is
updated in place, which in the value semantics re-stores it. -/
def Attack.update_progress_bar (self : Attack) (current : Nat)
    (values : Option (List (String × ℚ))) : Except PyError Attack :=
  match self.getattr? "prog_bar" with
  | Option.some (PyVal.progbar p) =>
      Except.ok (self.setattr "prog_bar" (PyVal.progbar (Progbar.update p current values)))
  | Option.some _ => Except.error (PyError.attributeError "update")
  | Option.none => Except.error (PyError.attributeError "prog_bar")

/-- The loop of `Attack.set_params` (attack.py lines 103-105):
`for key, value in kwargs.items(): if key in self.attack_params:
setattr(self, key, value)`.  The allow-list `self.attack_params` is
re-resolved at each iteration, exactly as Python evaluates it. -/
def set_params_loop (cls : List String) : Attack → List (String × PyVal) → Attack
  | self, [] => self
  | self, (k, v) :: rest =>
      set_params_loop cls
        (if k ∈ resolve_attack_params cls self then self.setattr k v else self) rest

/-- `Attack.set_params` (attack.py lines 95-106): iterate over the supplied
keywords, assign those whose name is in the allow-list, and return `True`.
`cls` is the class-level `attack_params` of the variant (`Attack.attack_params`
for the base class); `kwargs` is the keyword dictionary as an
insertion-ordered list (Python keyword arguments have pairwise distinct
keys). -/
def Attack.set_params (cls : List String) (self : Attack)
    (kwargs : List (String × PyVal)) : Attack × Bool :=
  (set_params_loop cls self kwargs, true)

/-- Projection used to state progress-bar claims: the (current step, target)
pair tracked by the instance's progress bar, if any. -/
def progbar_step (s : Attack) : Option (Nat × Option Nat) :=
  match s.getattr? "prog_bar" with
  | Option.some (PyVal.progbar p) => Option.some (p.current, p.target)
  | _ => Option.none

/-! ### Dictionary lemmas -/

lemma lookupA_setIn_self (d : List (String × PyVal)) (k : String) (v : PyVal) :
    lookupA (setIn d k v) k = Option.some v := by
  induction d with
  | nil => simp [setIn, lookupA]
  | cons hd tl ih =>
      obtain ⟨k', v'⟩ := hd
      by_cases h : k' = k
      · simp [setIn, lookupA, h]
      · simp [setIn, lookupA, h, ih]

lemma lookupA_setIn_other (d : List (String × PyVal)) (k k' : String) (v : PyVal)
    (h : k' ≠ k) : lookupA (setIn d k v) k' = lookupA d k' := by
  have h' : ¬k = k' := fun hk => h hk.symm
  induction d with
  | nil => simp [setIn, lookupA, h']
  | cons hd tl ih =>
      obtain ⟨k₀, v₀⟩ := hd
      by_cases h₀ : k₀ = k
      · subst h₀
        simp [setIn, lookupA, h']
      · simp [setIn, lookupA, h₀, ih]

lemma setIn_self (d : List (String × PyVal)) (k : String) (v : PyVal)
    (h : lookupA d k = Option.some v) : setIn d k v = d := by
  induction d with
  | nil => simp [lookupA] at h
  | cons hd tl ih =>
      obtain ⟨k₀, v₀⟩ := hd
      by_cases h₀ : k₀ = k
      · subst h₀
        simp [lookupA] at h
        simp [setIn, h]
      · simp [lookupA, h₀] at h
        simp [setIn, h₀, ih h]

lemma getattr?_setattr_self (s : Attack) (k : String) (v : PyVal) :
    (s.setattr k v).getattr? k = Option.some v :=
  lookupA_setIn_self s.dict k v

lemma getattr?_setattr_other (s : Attack) (k k' : String) (v : PyVal)
    (h : k' ≠ k) : (s.setattr k v).getattr? k' = s.getattr? k' :=
  lookupA_setIn_other s.dict k k' v h

lemma setattr_self (s : Attack) (k : String) (v : PyVal)
    (h : s.getattr? k = Option.some v) : s.setattr k v = s := by
  cases s with
  | mk d => exact congrArg Attack.mk (setIn_self d k v h)

/-! ### Loop invariants for `set_params` -/

lemma resolve_of_none (cls : List String) (s : Attack)
    (hs : s.getattr? "attack_params" = Option.none) :
    resolve_attack_params cls s = cls := by
  simp [resolve_attack_params, hs]

/-- One step of the loop preserves the absence of an instance-level
`attack_params` entry, provided the class allow-list does not contain the
name `attack_params`. -/
lemma step_attack_params_none (cls : List String) (s : Attack) (k : String) (v : PyVal)
    (hc : "attack_params" ∉ cls) (hs : s.getattr? "attack_params" = Option.none) :
    (if k ∈ resolve_attack_params cls s then s.setattr k v else s).getattr? "attack_params"
      = Option.none := by
  by_cases hk : k ∈ resolve_attack_params cls s
  · have hkc : k ∈ cls := by rwa [resolve_of_none cls s hs] at hk
    have hne : "attack_params" ≠ k := fun h => hc (h ▸ hkc)
    simp [hk, getattr?_setattr_other s k "attack_params" v hne, hs]
  · simp [hk, hs]

lemma loop_attack_params_none (cls : List String) (K : List (String × PyVal)) (s : Attack)
    (hc : "attack_params" ∉ cls) (hs : s.getattr? "attack_params" = Option.none) :
    (set_params_loop cls s K).getattr? "attack_params" = Option.none := by
  induction K generalizing s with
  | nil => exact hs
  | cons hd tl ih =>
      obtain ⟨k, v⟩ := hd
      exact ih _ (step_attack_params_none cls s k v hc hs)

/-- The loop never touches a key that is not among the supplied keywords. -/
lemma loop_getattr?_not_key (cls : List String) (K : List (String × PyVal)) (s : Attack)
    (k : String) (hk : k ∉ K.map Prod.fst) :
    (set_params_loop cls s K).getattr? k = s.getattr? k := by
  induction K generalizing s with
  | nil => rfl
  | cons hd tl ih =>
      obtain ⟨k₀, v₀⟩ := hd
      simp only [List.map_cons, List.mem_cons] at hk
      push_neg at hk
      have h₁ := ih (if k₀ ∈ resolve_attack_params cls s then s.setattr k₀ v₀ else s) hk.2
      rw [set_params_loop, h₁]
      by_cases h₀ : k₀ ∈ resolve_attack_params cls s
      · simp [h₀, getattr?_setattr_other s k₀ k v₀ hk.1]
      · simp [h₀]

/-- The loop never touches a key outside the allow-list, as long as the
allow-list is not shadowed (no instance-level `attack_params` entry and the
name `attack_params` itself outside the allow-list). -/
lemma loop_getattr?_not_allowed (cls : List String) (K : List (String × PyVal)) (s : Attack)
    (k : String) (hc : "attack_params" ∉ cls)
    (hs : s.getattr? "attack_params" = Option.none) (hk : k ∉ cls) :
    (set_params_loop cls s K).getattr? k = s.getattr? k := by
  induction K generalizing s with
  | nil => rfl
  | cons hd tl ih =>
      obtain ⟨k₀, v₀⟩ := hd
      rw [set_params_loop]
      have hs' := step_attack_params_none cls s k₀ v₀ hc hs
      by_cases h₀ : k₀ ∈ resolve_attack_params cls s
      · have hkc : k₀ ∈ cls := by rwa [resolve_of_none cls s hs] at h₀
        have hne : k ≠ k₀ := fun h => hk (h ▸ hkc)
        rw [if_pos h₀] at hs' ⊢
        rw [ih _ hs']
        exact getattr?_setattr_other s k₀ k v₀ hne
      · rw [if_neg h₀] at hs' ⊢
        exact ih s hs'

/-- A supplied keyword whose name is in the (unshadowed) allow-list ends up
assigned to its supplied value, given pairwise distinct keyword names. -/
lemma loop_getattr?_mem (cls : List String) (K : List (String × PyVal)) (s : Attack)
    (k : String) (v : PyVal) (hc : "attack_params" ∉ cls)
    (hs : s.getattr? "attack_params" = Option.none)
    (hnd : (K.map Prod.fst).Nodup) (hkv : (k, v) ∈ K) (hk : k ∈ cls) :
    (set_params_loop cls s K).getattr? k = Option.some v := by
  induction K generalizing s with
  | nil => simp at hkv
  | cons hd tl ih =>
      obtain ⟨k₀, v₀⟩ := hd
      simp only [List.map_cons, List.nodup_cons] at hnd
      rcases List.mem_cons.mp hkv with heq | htl
      · obtain ⟨hk₁, hv₁⟩ := Prod.mk.injEq .. ▸ heq
        subst hk₁; subst hv₁
        have h₀ : k ∈ resolve_attack_params cls s := by
          rwa [resolve_of_none cls s hs]
        rw [set_params_loop]
        simp only [h₀, if_pos]
        have hnk : k ∉ tl.map Prod.fst := hnd.1
        rw [loop_getattr?_not_key cls tl _ k hnk]
        exact getattr?_setattr_self s k v
      · rw [set_params_loop]
        exact ih _ (step_attack_params_none cls s k₀ v₀ hc hs) hnd.2 htl

/-! ### Reachable states -/

/-- States of a base-class `Attack` instance reachable through the class's
own operations: construction, `set_params`, `start_progress_bar` and
`update_progress_bar` (a successful call). -/
inductive Reachable : Attack → Prop
  | init (c : PyVal) : Reachable (Attack.init c)
  | set_params (s : Attack) (K : List (String × PyVal)) :
      Reachable s → Reachable (Attack.set_params Attack.attack_params s K).1
  | start_progress_bar (s : Attack) (t : Option Nat) (w v : Nat) (i : ℚ)
      (m : Option (List String)) :
      Reachable s → Reachable (Attack.start_progress_bar s t w v i m)
  | update_progress_bar (s : Attack) (cur : Nat)
      (vals : Option (List (String × ℚ))) (s' : Attack) :
      Reachable s → Attack.update_progress_bar s cur vals = Except.ok s' →
      Reachable s'

/-- States of a base-class `Attack` instance reachable without ever calling
`start_progress_bar`: construction followed by `set_params` calls only. -/
inductive ReachableNoStart : Attack → Prop
  | init (c : PyVal) : ReachableNoStart (Attack.init c)
  | set_params (s : Attack) (K : List (String × PyVal)) :
      ReachableNoStart s →
      ReachableNoStart (Attack.set_params Attack.attack_params s K).1

lemma init_getattr?_attack_params (c : PyVal) :
    (Attack.init c).getattr? "attack_params" = Option.none := by
  simp [Attack.init, Attack.getattr?, lookupA]

lemma init_getattr?_prog_bar (c : PyVal) :
    (Attack.init c).getattr? "prog_bar" = Option.none := by
  simp [Attack.init, Attack.getattr?, lookupA]

lemma attack_params_not_mem_base : "attack_params" ∉ Attack.attack_params := by
  decide

/-- No reachable state of the base class shadows the class attribute
`attack_params` with an instance attribute. -/
lemma reachable_attack_params_none (s : Attack) (hs : Reachable s) :
    s.getattr? "attack_params" = Option.none := by
  induction hs with
  | init c => exact init_getattr?_attack_params c
  | set_params s K _ ih =>
      exact loop_attack_params_none Attack.attack_params K s
        attack_params_not_mem_base ih
  | start_progress_bar s t w v i m _ ih =>
      rw [Attack.start_progress_bar,
        getattr?_setattr_other s "prog_bar" "attack_params" _ (by decide)]
      exact ih
  | update_progress_bar s cur vals s' _ heq ih =>
      rw [Attack.update_progress_bar] at heq
      cases hpb : s.getattr? "prog_bar" with
      | none => rw [hpb] at heq; cases heq
      | some pv =>
          cases pv with
          | progbar p =>
              rw [hpb] at heq
              cases heq
              rw [getattr?_setattr_other s "prog_bar" "attack_params" _ (by decide)]
              exact ih
          | pynone => rw [hpb] at heq; cases heq
          | bool b => rw [hpb] at heq; cases heq
          | int n => rw [hpb] at heq; cases heq
          | float q => rw [hpb] at heq; cases heq
          | str s₀ => rw [hpb] at heq; cases heq
          | strList l => rw [hpb] at heq; cases heq
          | obj i₀ => rw [hpb] at heq; cases heq

/-- A state reachable without `start_progress_bar` has no instance-level
`attack_params` entry and no `prog_bar` attribute. -/
lemma reachableNoStart_invariant (s : Attack) (hs : ReachableNoStart s) :
    s.getattr? "attack_params" = Option.none
      ∧ s.getattr? "prog_bar" = Option.none := by
  induction hs with
  | init c => exact ⟨init_getattr?_attack_params c, init_getattr?_prog_bar c⟩
  | set_params s K _ ih =>
      refine ⟨loop_attack_params_none Attack.attack_params K s
        attack_params_not_mem_base ih.1, ?_⟩
      rw [Attack.set_params]
      rw [loop_getattr?_not_allowed Attack.attack_params K s "prog_bar"
        attack_params_not_mem_base ih.1 (by decide)]
      exact ih.2

/-- A successful `update_progress_bar` call comes from a state holding a
progress bar and re-stores the updated bar. -/
lemma update_ok (s : Attack) (cur : Nat) (vals : Option (List (String × ℚ)))
    (s' : Attack) (h : Attack.update_progress_bar s cur vals = Except.ok s') :
    ∃ p : ProgbarState, s.getattr? "prog_bar" = Option.some (PyVal.progbar p)
      ∧ s' = s.setattr "prog_bar" (PyVal.progbar (Progbar.update p cur vals)) := by
  rw [Attack.update_progress_bar] at h
  cases hpb : s.getattr? "prog_bar" with
  | none => rw [hpb] at h; cases h
  | some pv =>
      cases pv with
      | progbar p => rw [hpb] at h; cases h; exact ⟨p, rfl, rfl⟩
      | pynone => rw [hpb] at h; cases h
      | bool b => rw [hpb] at h; cases h
      | int n => rw [hpb] at h; cases h
      | float q => rw [hpb] at h; cases h
      | str s₀ => rw [hpb] at h; cases h
      | strList l => rw [hpb] at h; cases h
      | obj i₀ => rw [hpb] at h; cases h

/-- Applying the `set_params` loop a second time with the same keywords
(pairwise distinct names, unshadowed allow-list) does not change the state
further. -/
lemma loop_idem (cls : List String) (K : List (String × PyVal)) (s : Attack)
    (hc : "attack_params" ∉ cls) (hs : s.getattr? "attack_params" = Option.none)
    (hnd : (K.map Prod.fst).Nodup) :
    set_params_loop cls (set_params_loop cls s K) K = set_params_loop cls s K := by
  induction K generalizing s with
  | nil => rfl
  | cons hd tl ih =>
      obtain ⟨k, v⟩ := hd
      simp only [List.map_cons, List.nodup_cons] at hnd
      have hres : resolve_attack_params cls s = cls := resolve_of_none cls s hs
      by_cases hk : k ∈ cls
      · have hk₀ : k ∈ resolve_attack_params cls s := by rw [hres]; exact hk
        have hs₁ : (s.setattr k v).getattr? "attack_params" = Option.none := by
          rw [getattr?_setattr_other s k "attack_params" v (fun h => hc (h ▸ hk))]
          exact hs
        have h₂ : (set_params_loop cls (s.setattr k v) tl).getattr? "attack_params"
            = Option.none := loop_attack_params_none cls tl _ hc hs₁
        have hk₂ : k ∈ resolve_attack_params cls (set_params_loop cls (s.setattr k v) tl) := by
          rw [resolve_of_none cls _ h₂]; exact hk
        have hlook : (set_params_loop cls (s.setattr k v) tl).getattr? k
            = Option.some v := by
          rw [loop_getattr?_not_key cls tl _ k hnd.1]
          exact getattr?_setattr_self s k v
        simp only [set_params_loop, if_pos hk₀, if_pos hk₂,
          setattr_self _ k v hlook]
        exact ih _ hs₁ hnd.2
      · have hk₀ : k ∉ resolve_attack_params cls s := by rw [hres]; exact hk
        have h₂ : (set_params_loop cls s tl).getattr? "attack_params" = Option.none :=
          loop_attack_params_none cls tl s hc hs
        have hk₂ : k ∉ resolve_attack_params cls (set_params_loop cls s tl) := by
          rw [resolve_of_none cls _ h₂]; exact hk
        simp only [set_params_loop, if_neg hk₀, if_neg hk₂]
        exact ih s hs hnd.2

/-! ### Claims -/

/-- C1: for every keyword set `K` supplied to `set_params` on an `Attack`
instance (class allow-list `cls` that does not list the name
`attack_params`, no instance-level shadowing of `attack_params`, keyword
names pairwise distinct as Python keyword arguments are), the call returns
`True`, exactly the supplied keywords whose names are in the allow-list are
assigned their supplied values, and every attribute whose name is not a
supplied keyword, or not in the allow-list, is unchanged. -/
theorem set_params_exact (cls : List String) (s : Attack) (K : List (String × PyVal))
    (hc : "attack_params" ∉ cls) (hs : s.getattr? "attack_params" = Option.none)
    (hnd : (K.map Prod.fst).Nodup) :
    (Attack.set_params cls s K).2 = true
    ∧ (∀ k v, (k, v) ∈ K → k ∈ cls →
        (Attack.set_params cls s K).1.getattr? k = Option.some v)
    ∧ (∀ k, k ∉ K.map Prod.fst →
        (Attack.set_params cls s K).1.getattr? k = s.getattr? k)
    ∧ (∀ k, k ∉ cls →
        (Attack.set_params cls s K).1.getattr? k = s.getattr? k) := by
  refine ⟨rfl, ?_, ?_, ?_⟩
  · intro k v hkv hk
    exact loop_getattr?_mem cls K s k v hc hs hnd hkv hk
  · intro k hk
    exact loop_getattr?_not_key cls K s k hk
  · intro k hk
    exact loop_getattr?_not_allowed cls K s k hc hs hk

theorem set_params_exact_witness :
    (Attack.set_params ["classifier", "eps"] (Attack.init (PyVal.obj 0))
        [("eps", PyVal.int 3), ("foo", PyVal.int 7)]).1.getattr? "eps"
      = Option.some (PyVal.int 3) :=
  (set_params_exact ["classifier", "eps"] (Attack.init (PyVal.obj 0))
      [("eps", PyVal.int 3), ("foo", PyVal.int 7)]
      (by decide) (by decide) (by decide)).2.1 "eps" (PyVal.int 3)
      (by decide) (by decide)

/-- C2: `set_params` never fails and always returns `True`, for every class
allow-list, every starting state and every keyword set: the loop body has
no raise path and the method unconditionally returns `True`. -/
theorem set_params_returns_true (cls : List String) (s : Attack)
    (K : List (String × PyVal)) : (Attack.set_params cls s K).2 = true := rfl

/-- C3: invoking `generate` on the base `Attack` class — equivalently, on a
concrete subclass that does not override it, whose dispatch resolves to the
same method body — raises `NotImplementedError`, which propagates to the
caller. -/
theorem generate_not_implemented (self : Attack) (x : PyVal)
    (kwargs : List (String × PyVal)) :
    Attack.generate self x kwargs = Except.error PyError.notImplementedError := rfl

/-- C4: in every reachable state of a base-class instance (after
construction and any sequence of `set_params` and progress-bar calls) the
resolved `attack_params` list contains `"classifier"`. -/
theorem classifier_mem_attack_params (s : Attack) (hs : Reachable s) :
    "classifier" ∈ resolve_attack_params Attack.attack_params s := by
  rw [resolve_of_none _ _ (reachable_attack_params_none s hs)]
  decide

theorem classifier_mem_attack_params_witness :
    "classifier" ∈ resolve_attack_params Attack.attack_params
      (Attack.init (PyVal.obj 0)) :=
  classifier_mem_attack_params (Attack.init (PyVal.obj 0))
    (Reachable.init (PyVal.obj 0))

/-- C5: constructing an `Attack` with classifier `c` stores exactly `c` —
the same reference value, not a copy — as the `classifier` attribute. -/
theorem init_stores_classifier (c : PyVal) :
    (Attack.init c).getattr? "classifier" = Option.some c := by
  simp [Attack.init, Attack.getattr?, lookupA]

/-- C6 counterexample: the claim that no operation other than `set_params`
changes any attribute, and that only attributes named in `attack_params`
are ever assigned, is false: `start_progress_bar` creates the `prog_bar`
attribute, whose name is not in `attack_params`. -/
theorem start_progress_bar_mutates :
    (Attack.start_progress_bar (Attack.init (PyVal.obj 0)) (Option.some 10) 30 1 0
          Option.none).getattr? "prog_bar"
      ≠ (Attack.init (PyVal.obj 0)).getattr? "prog_bar"
    ∧ "prog_bar" ∉ Attack.attack_params := by
  constructor
  · rw [init_getattr?_prog_bar, Attack.start_progress_bar, getattr?_setattr_self]
    simp
  · decide

/-- C6 amended: after construction an instance is mutated only through
`set_params`, `start_progress_bar` and `update_progress_bar`; `set_params`
changes only attributes named in the (unshadowed) allow-list, and the two
progress-bar operations change only the `prog_bar` attribute. -/
theorem mutation_frame (cls : List String) (s : Attack) (K : List (String × PyVal))
    (t : Option Nat) (w vb : Nat) (i : ℚ) (m : Option (List String)) (cur : Nat)
    (vals : Option (List (String × ℚ))) (s' : Attack) (k : String)
    (hc : "attack_params" ∉ cls) (hs : s.getattr? "attack_params" = Option.none) :
    (k ∉ cls → (Attack.set_params cls s K).1.getattr? k = s.getattr? k)
    ∧ (k ≠ "prog_bar" →
        (Attack.start_progress_bar s t w vb i m).getattr? k = s.getattr? k)
    ∧ (Attack.update_progress_bar s cur vals = Except.ok s' → k ≠ "prog_bar" →
        s'.getattr? k = s.getattr? k) := by
  refine ⟨?_, ?_, ?_⟩
  · intro hk
    exact loop_getattr?_not_allowed cls K s k hc hs hk
  · intro hk
    exact getattr?_setattr_other s "prog_bar" k _ hk
  · intro hok hk
    obtain ⟨p, _, hs'⟩ := update_ok s cur vals s' hok
    rw [hs']
    exact getattr?_setattr_other s "prog_bar" k _ hk

theorem mutation_frame_witness :
    (Attack.set_params Attack.attack_params (Attack.init (PyVal.obj 0))
        [("foo", PyVal.int 1)]).1.getattr? "foo"
      = (Attack.init (PyVal.obj 0)).getattr? "foo" :=
  (mutation_frame Attack.attack_params (Attack.init (PyVal.obj 0))
      [("foo", PyVal.int 1)] Option.none 0 0 0 Option.none 0 Option.none
      (Attack.init (PyVal.obj 0)) "foo" (by decide) (by decide)).1 (by decide)

/-- C7: starting the progress bar with target 10 (width 30, verbose 1,
interval 0.05, no stateful metrics — the source's defaults) and then
updating with current step 5 and values `[("loss", 0.2)]` raises no error,
and the resulting progress-bar state reflects step 5 of 10. -/
theorem progress_five_of_ten :
    ∃ s' : Attack,
      Attack.update_progress_bar
          (Attack.start_progress_bar (Attack.init (PyVal.obj 0)) (Option.some 10) 30 1
            (1/20) Option.none) 5 (Option.some [("loss", 1/5)])
        = Except.ok s'
      ∧ progbar_step s' = Option.some (5, Option.some 10) := by
  exact ⟨_, rfl, rfl⟩

/-- C8: `set_params` is idempotent — with an unshadowed allow-list not
listing the name `attack_params` and pairwise distinct keyword names,
calling it twice in succession leaves the instance exactly as one call
does — and calling it with no keywords changes nothing and returns
`True`. -/
theorem set_params_idempotent (cls : List String) (s : Attack)
    (K : List (String × PyVal)) (hc : "attack_params" ∉ cls)
    (hs : s.getattr? "attack_params" = Option.none)
    (hnd : (K.map Prod.fst).Nodup) :
    Attack.set_params cls (Attack.set_params cls s K).1 K
      = Attack.set_params cls s K
    ∧ Attack.set_params cls s [] = (s, true) :=
  ⟨congrArg (fun a => (a, true)) (loop_idem cls K s hc hs hnd), rfl⟩

theorem set_params_idempotent_witness :
    Attack.set_params Attack.attack_params
        (Attack.set_params Attack.attack_params (Attack.init (PyVal.obj 0))
          [("classifier", PyVal.obj 1)]).1 [("classifier", PyVal.obj 1)]
      = Attack.set_params Attack.attack_params (Attack.init (PyVal.obj 0))
          [("classifier", PyVal.obj 1)] :=
  (set_params_idempotent Attack.attack_params (Attack.init (PyVal.obj 0))
      [("classifier", PyVal.obj 1)] (by decide) (by decide) (by decide)).1

/-- C9: calling `update_progress_bar` before `start_progress_bar` has ever
been called — in any state reachable by construction and `set_params`
alone — fails with `AttributeError` for the `prog_bar` attribute, which
only `start_progress_bar` creates. -/
theorem update_before_start (s : Attack) (hs : ReachableNoStart s) (cur : Nat)
    (vals : Option (List (String × ℚ))) :
    Attack.update_progress_bar s cur vals
      = Except.error (PyError.attributeError "prog_bar") := by
  rw [Attack.update_progress_bar, (reachableNoStart_invariant s hs).2]

theorem update_before_start_witness :
    Attack.update_progress_bar (Attack.init (PyVal.obj 0)) 5
        (Option.some [("loss", 1/5)])
      = Except.error (PyError.attributeError "prog_bar") :=
  update_before_start (Attack.init (PyVal.obj 0))
    (ReachableNoStart.init (PyVal.obj 0)) 5 (Option.some [("loss", 1/5)])

/-- C10: for the base `Attack` class the name `attack_params` is not in the
allow-list `["classifier"]`, so `set_params` can never reassign
`attack_params` itself: in every state reachable by construction followed
by any sequence of `set_params` calls the resolved allow-list is still the
class-level one. -/
theorem attack_params_never_reassigned (s : Attack) (hs : ReachableNoStart s) :
    "attack_params" ∉ Attack.attack_params
    ∧ resolve_attack_params Attack.attack_params s = Attack.attack_params :=
  ⟨attack_params_not_mem_base,
    resolve_of_none Attack.attack_params s (reachableNoStart_invariant s hs).1⟩

theorem attack_params_never_reassigned_witness :
    "attack_params" ∉ Attack.attack_params
    ∧ resolve_attack_params Attack.attack_params
        (Attack.set_params Attack.attack_params (Attack.init (PyVal.obj 0))
          [("attack_params", PyVal.strList ["eps"]), ("classifier", PyVal.obj 1)]).1
      = Attack.attack_params :=
  attack_params_never_reassigned _
    (ReachableNoStart.set_params _ _ (ReachableNoStart.init (PyVal.obj 0)))
